import Mathlib

/-!
Verification of the aRez Paladins API wrapper (`arez/` package).

This development shallowly embeds the parts of the library that the checked
properties speak about:

* `arez/utils.py` — `_deduplicate`, `chunk`, `_LookupBase._cache_object`,
  `_LookupBase.get_fuzzy_matches`;
* `arez/endpoint.py` — the session-renewal block and the retry loop of
  `Endpoint.request`;
* `arez/champion.py` — the `Champion` constructor's card/talent partitioning
  and `Champion.__bool__`;
* `arez/api.py` — `get_server_status`, `_status_loop`, `get_player`,
  `get_players`, `get_matches`.

Conventions: Python `datetime` values are modelled as integers (minutes for the
session logic; only the comparison structure matters); Python dicts are
modelled as insertion-ordered association lists; upstream HTTP responses are
inputs to the embedded functions (one response per issued request); Python
`float` similarity scores are modelled as rationals (only their ordering is
ever used); Python's stable `list.sort(key=K)` is modelled as
`List.insertionSort` with the relation `K a ≤ K b`, which is also stable.
Classes that live in repository files not present under `src/` (`mixins.py`,
`status.py`, `cache.py`, `items.py`) are modelled from the spec where needed;
each such definition is marked in its doc comment.
-/

namespace Arez

/-! ## Definitions -/

/-! ### utils.py: `_deduplicate` and `chunk` -/

/-- Helper for `_deduplicate`: `list(OrderedDict.fromkeys(iterable))` keeps the
first occurrence of each value, in encounter order. `seen` is the set of values
already emitted. -/
def dedupKeysAux (seen : List Int) : List Int → List Int
  | [] => []
  | a :: l => if a ∈ seen then dedupKeysAux seen l else a :: dedupKeysAux (a :: seen) l

/-- First-occurrence deduplication, as `list(OrderedDict.fromkeys(iterable))`
in `utils._deduplicate`. -/
def dedupKeys (l : List Int) : List Int := dedupKeysAux [] l

/-- `utils._deduplicate(iterable, *to_remove)`: deduplicate keeping first
occurrences, then remove the `to_remove` values.  The source uses
`no_dups.remove(value)`, which removes a single occurrence; after
deduplication each value occurs at most once, so this equals filtering. -/
def deduplicate (l : List Int) (to_remove : List Int) : List Int :=
  (dedupKeys l).filter (fun a => decide (a ∉ to_remove))

/-- Fueled core of `chunk`; the fuel is an upper bound on the list length, so
recursion is structural and the definition evaluates in the kernel. -/
def chunkGo (n : Nat) : Nat → List α → List (List α)
  | _, [] => []
  | 0, _ => []
  | fuel + 1, a :: t => (a :: t.take (n - 1)) :: chunkGo n fuel (t.drop (n - 1))

/-- `utils.chunk(list_to_chunk, chunk_length)` for `chunk_length ≥ 1`:
the consecutive slices `l[i:i+n]` for `i = 0, n, 2n, ...`.  The source only
ever calls this with lengths `10` and `20`. -/
def chunk (n : Nat) (l : List α) : List (List α) := chunkGo n l.length l

/-! ### api.py: `get_player`, `get_players`, `get_matches`

The embedded functions return, besides their result, the list of upstream
requests they issue (each batch request is identified by the id chunk it
asks for).  Upstream responses are supplied by a function from the requested
chunk to the parsed JSON record list. -/

/-- Python argument values, as far as the embedded functions inspect them
(`isinstance` checks on `int`, `float` and `str`). -/
inductive PyVal where
  | int (n : Int)
  | float (q : ℚ)
  | str (s : String)
  | noneV
deriving DecidableEq

/-- One record of a `getplayerbatch` / `getplayer` JSON response
(`responses.PlayerObject`), reduced to the fields `api.get_players` branches
on: the player id, the `ret_msg` error field, and the player id that
`re.search(r'playerId=([0-9]+)', ret_msg)` extracts from a non-empty
`ret_msg` (`None` when the regex does not match; the regex itself is Python
stdlib and is modelled by its result).  Returned players are tracked by
their id. -/
structure PlayerRecord where
  pid : Int
  ret_msg : String
  msg_pid : Option Int
deriving DecidableEq

/-- One chunk iteration of `api.get_players` (api.py 578-594): keep records
with an empty `ret_msg` as `Player`s, keep records with the regex-extracted
private id as `PartialPlayer`s when `return_private` is set, drop the rest,
then re-sort the chunk's players to the chunk's request order
(`chunk_players.sort(key=lambda p: chunk_ids.index(p.id))`). -/
def processPlayerChunk (return_private : Bool) (chunk_ids : List Int)
    (resp : List PlayerRecord) : List Int :=
  let kept := resp.filterMap (fun p =>
    if p.ret_msg = "" then some p.pid
    else if return_private then p.msg_pid else none)
  kept.insertionSort (fun a b => chunk_ids.indexOf a ≤ chunk_ids.indexOf b)

/-- `api.get_players(player_ids, return_private=...)` (api.py 537-595):
deduplicate the ids while removing id `0`, issue one `getplayerbatch` request
per chunk of 20 ids, and concatenate the per-chunk results.  Returns the
issued requests and the returned players' ids. -/
def get_players (player_ids : List Int) (return_private : Bool)
    (upstream : List Int → List PlayerRecord) : List (List Int) × List Int :=
  let ids_list := deduplicate player_ids [0]
  let chunks := chunk 20 ids_list
  (chunks, (chunks.map (fun c => processPlayerChunk return_private c (upstream c))).flatten)

/-- One record of a `getmatchdetailsbatch` JSON response
(`responses.MatchPlayerObject`), reduced to the fields `api.get_matches`
branches on: the match id (the `Match` field, one record per player of the
match) and the `ret_msg` error field. -/
structure MatchRecord where
  mid : Int
  ret_msg : String
deriving DecidableEq

/-- The chunk loop of `api.get_matches` (api.py 858-881): for each chunk of 10
ids issue one `getmatchdetailsbatch` request; if any record of the response
carries a non-empty `ret_msg`, raise `HTTPException` (modelled as
`Except.error ()`), abandoning the remaining chunks; otherwise group the
records by their `Match` field (`group_by` — a dict in first-occurrence key
order) and emit one `Match` per group, in that order.  Matches are tracked by
their id, so a chunk contributes `dedupKeys` of the response's match ids. -/
def get_matches_go (upstream : List Int → List MatchRecord) :
    List (List Int) → List (List Int) × Except Unit (List Int)
  | [] => ([], .ok [])
  | c :: cs =>
    let resp := upstream c
    if resp.any (fun r => decide (r.ret_msg ≠ "")) then
      ([c], .error ())
    else
      let rest := get_matches_go upstream cs
      (c :: rest.1, rest.2.map (fun ms => dedupKeys (resp.map (·.mid)) ++ ms))

/-- `api.get_matches(match_ids, ...)` (api.py 805-882): deduplicate the ids
(`_deduplicate(match_ids)` — nothing removed), then run the chunk loop on
chunks of 10.  Returns the issued requests and either the match ids in output
order or the `HTTPException` error. -/
def get_matches (match_ids : List Int)
    (upstream : List Int → List MatchRecord) : List (List Int) × Except Unit (List Int) :=
  get_matches_go upstream (chunk 10 (deduplicate match_ids []))

/-- Result of the pre-request part of `api.get_player` (api.py 494-501). -/
inductive GetPlayerPre where
  | typeError
  | notFound
  | requested (arg : String)
deriving DecidableEq

/-- `api.get_player(player, ...)` up to the point where the single upstream
`getplayer` request is issued: the `isinstance(player, (int, str))` check, the
`str(player)` cast, and the early `NotFound` for `'0'` that is raised before
any request ("save on the request by raising Notfound for zero straight
away"). -/
def get_player_pre (player : PyVal) : GetPlayerPre :=
  match player with
  | .int n => if toString n = "0" then .notFound else .requested (toString n)
  | .str s => if s = "0" then .notFound else .requested s
  | _ => .typeError

/-! ### utils.py: `_LookupBase.get_fuzzy_matches` -/

/-- Python exceptions raised by argument validation. -/
inductive PyErr where
  | typeError (msg : String)
  | valueError (msg : String)
deriving DecidableEq

/-- `_LookupBase.get_fuzzy_matches(name, limit=..., cutoff=..., ...)`
(utils.py 525-570).  `rq`, `q` and `r` are `SequenceMatcher.real_quick_ratio`,
`quick_ratio` and `ratio` (stdlib `difflib`, modelled as score functions of
`(seq1, seq2)`; only the comparisons with `cutoff` are used).  `bank` is the
name-keyed lookup bank iterated over (`_name_lookup`, or `_name_chain_lookup`
when `with_cached` is set), with elements of type `α`.  Validation follows the
source order: `TypeError` for a non-`str` name, non-`int` limit or non-`float`
cutoff, then `ValueError` for `limit <= 0` or `cutoff` outside `[0, 1]`.
The result models the `with_scores=True` shape (element/score pairs); the
`with_scores=False` output is its `map Prod.fst` image. -/
def get_fuzzy_matches (rq q r : String → String → ℚ) (bank : List (String × α))
    (name limit cutoff : PyVal) : Except PyErr (List (α × ℚ)) :=
  match name with
  | .str nm =>
    match limit with
    | .int lim =>
      match cutoff with
      | .float co =>
        if ¬ lim > 0 then
          .error (.valueError "limit has to be a positive non-zero integer")
        else if ¬ (0 ≤ co ∧ co ≤ 1) then
          .error (.valueError "cutoff has to be a float in 0-1 range")
        else
          let qn := nm.toLower
          let scores := bank.filterMap (fun kv =>
            if rq kv.1 qn ≥ co ∧ q kv.1 qn ≥ co ∧ r kv.1 qn ≥ co then
              some (kv.2, r kv.1 qn)
            else none)
          let sorted := scores.insertionSort (fun a b => a.2 ≥ b.2)
          .ok (sorted.take lim.toNat)
      | _ => .error (.typeError "cutoff has to be a float in 0-1 range")
    | _ => .error (.typeError "limit has to be a positive non-zero integer")
  | _ => .error (.typeError "name has to be a string")

/-! ### mixins.py / utils.py: `CacheObject` and `_LookupBase._cache_object` -/

/-- Modelled from the spec: `CacheObject` (its class lives in `mixins.py`,
which is not among the sources): a "minimal `{id: int, name: str}` identity
placeholder; two sentinel defaults (id=0, name='')".  `allocId` models Python
object identity: every `CacheObject(...)` allocation gets a fresh value, so
two values are the same instance iff their `allocId`s agree. -/
structure CacheObject where
  allocId : Nat
  id : Int
  name : String
deriving DecidableEq

/-- Modelled from the spec: `CacheObject.is_default_id` tests the id sentinel
default `0`. -/
def CacheObject.is_default_id (o : CacheObject) : Bool := o.id == 0

/-- Modelled from the spec: `CacheObject.is_default_name` tests the name
sentinel default `''`. -/
def CacheObject.is_default_name (o : CacheObject) : Bool := o.name == ""

/-- Python `dict` lookup `d.get(k)`, on an insertion-ordered association
list. -/
def dictGet [BEq κ] (d : List (κ × ν)) (k : κ) : Option ν :=
  (d.find? (fun kv => kv.1 == k)).map (·.2)

/-- Python `dict` assignment `d[k] = v`: replace in place when the key exists,
append otherwise. -/
def dictSet [BEq κ] (d : List (κ × ν)) (k : κ) (v : ν) : List (κ × ν) :=
  if (d.find? (fun kv => kv.1 == k)).isSome then
    d.map (fun kv => if kv.1 == k then (kv.1, v) else kv)
  else d ++ [(k, v)]

/-- The `_LookupBase` state that `_cache_object` reads and writes: the primary
id/name indices and the synthesized-`CacheObject` shadow maps (utils.py
295-299).  Primary-index elements are represented by their key `CacheObject`.
`nextAlloc` feeds fresh `allocId`s to new allocations. -/
structure LookupState where
  id_lookup : List (Int × CacheObject)
  name_lookup : List (String × CacheObject)
  cached_id_lookup : List (Int × CacheObject)
  cached_name_lookup : List (String × CacheObject)
  nextAlloc : Nat
deriving DecidableEq

/-- The `element = CacheObject(**kwargs)` tail of `_cache_object` (utils.py
395-400): allocate a fresh `CacheObject` with the supplied halves (sentinel
defaults for the missing ones) and record it in the shadow maps under every
non-default key. -/
def cacheObjectAlloc (st : LookupState) (id : Option Int) (name : Option String) :
    Except String (CacheObject × LookupState) :=
  let element : CacheObject :=
    { allocId := st.nextAlloc, id := id.getD 0, name := name.getD "" }
  let st₁ :=
    if ¬ element.is_default_id then
      { st with cached_id_lookup := dictSet st.cached_id_lookup element.id element }
    else st
  let st₂ :=
    if ¬ element.is_default_name then
      { st₁ with
        cached_name_lookup := dictSet st₁.cached_name_lookup element.name.toLower element }
    else st₁
  .ok (element, { st₂ with nextAlloc := st.nextAlloc + 1 })

/-- The name-shadow-map half of the `_cache_object` fallback (the
`if name is not None` block, utils.py 389-394), reached when no shadow entry
was found by id: reuse a recorded name-keyed `CacheObject` unless it is an
id-less placeholder and an id is being supplied, in which case allocate a
merged object. -/
def cacheObjectNameFallback (st : LookupState) (id : Option Int) (name : Option String) :
    Except String (CacheObject × LookupState) :=
  match name with
  | some nm =>
    match dictGet st.cached_name_lookup nm.toLower with
    | some e =>
      if ¬ e.is_default_id ∨ id = none then .ok (e, st)
      else cacheObjectAlloc st id name
    | none => cacheObjectAlloc st id name
  | none => cacheObjectAlloc st id name

/-- The fallback part of `_cache_object` (utils.py 379-400), reached when the
primary index misses: reuse a recorded id-keyed `CacheObject` unless it is a
name-less placeholder and a name is being supplied; when the id shadow map
has an entry, the name shadow map is not consulted (`element is None` guards
the name branch). -/
def cacheObjectFallback (st : LookupState) (id : Option Int) (name : Option String) :
    Except String (CacheObject × LookupState) :=
  match id with
  | some i =>
    match dictGet st.cached_id_lookup i with
    | some e =>
      if ¬ e.is_default_name ∨ name = none then .ok (e, st)
      else cacheObjectAlloc st id name
    | none => cacheObjectNameFallback st id name
  | none => cacheObjectNameFallback st id name

/-- `_LookupBase._cache_object(id=..., name=...)` (utils.py 355-400): resolve
against the primary index first (`self.get(id)` resp. `self.get(name)`,
lowercased names); on a miss, fall back to the shadow `CacheObject` maps and
finally to a fresh allocation.  The `isinstance` `ValueError` guards cannot
fire here since the arguments are typed; the both-`None` `TypeError` is the
`error` case. -/
def cache_object (st : LookupState) (id : Option Int) (name : Option String) :
    Except String (CacheObject × LookupState) :=
  match id, name with
  | none, none => .error "Either ID or Name are required"
  | some i, name =>
    match dictGet st.id_lookup i with
    | some o => .ok (o, st)
    | none => cacheObjectFallback st (some i) name
  | none, some nm =>
    match dictGet st.name_lookup nm.toLower with
    | some o => .ok (o, st)
    | none => cacheObjectFallback st none (some nm)

/-! ### champion.py: `Champion` -/

/-- `DeviceType` (enums.py): the variants the `Champion` constructor branches
on. -/
inductive DeviceType where
  | Undefined
  | Item
  | Card
  | Talent
deriving DecidableEq

/-- Modelled from the spec: `Device` (its class lives in `items.py`, which is
not among the sources), reduced to the fields the `Champion` constructor
reads: the device type, the sort keys `unlocked_at` and `name`, and the id. -/
structure Device where
  id : Int
  name : String
  dtype : DeviceType
  unlocked_at : Int
deriving DecidableEq

/-- `Champion`, reduced to the identity and the three collections
`Champion.__bool__` and the constructor populate.  Abilities are tracked as
(id, name) pairs. -/
structure Champion where
  id : Int
  name : String
  abilities : List (Int × String)
  cards : List Device
  talents : List Device
deriving DecidableEq

/-- The card/talent part of `Champion.__init__` (champion.py 234-247):
partition `devices` by type (anything that is neither a card nor a talent is
dropped), sort the talents by `unlocked_at` and the cards by name.  The
subsequent stable re-sort of the cards by their ability name
(`_card_ability_sort`, champion.py 245 — the key reads `card.ability`, set by
`Device._attach_champion` in the absent `items.py`) only permutes the cards
and is omitted; it affects no indexed content and no count. -/
def mkChampion (id : Int) (name : String) (abilities : List (Int × String))
    (devices : List Device) : Champion :=
  let cards := devices.filter (fun d => d.dtype == DeviceType.Card)
  let talents := devices.filter (fun d => d.dtype == DeviceType.Talent)
  { id := id, name := name, abilities := abilities,
    cards := cards.insertionSort (fun a b => a.name ≤ b.name),
    talents := talents.insertionSort (fun a b => a.unlocked_at ≤ b.unlocked_at) }

/-- `Champion.__bool__` (champion.py 256-257):
`len(self.cards) == 16 and len(self.talents) == 3`. -/
def Champion.toBool (c : Champion) : Bool :=
  c.cards.length == 16 && c.talents.length == 3

/-! ### endpoint.py: the session block of `Endpoint.request` -/

/-- `SESSION_LIFETIME = timedelta(minutes=15)` (endpoint.py 22), in the
integer-minutes time model. -/
def SESSION_LIFETIME : Int := 15

/-- The session state of an `Endpoint`: the stored expiry
(`_session_expires`; the constructor initialises it to the construction time,
so the first authenticated request always creates a session) and the creation
time of the current session token (`none` before the first `createsession`).
The token value itself is irrelevant to the checked property and is
represented by its creation time. -/
structure SessionState where
  expires : Int
  keyCreatedAt : Option Int
deriving DecidableEq

/-- The session block of `Endpoint.request` (endpoint.py 370-386), executed
under `_session_lock` for every authenticated (non-whitelisted) method before
the signed request is built: if `now >= _session_expires`, issue
`createsession` and store the new token; then — in both branches —
set `_session_expires = now + SESSION_LIFETIME`.  Returns whether
`createsession` was issued, and the updated state. -/
def sessionCheck (st : SessionState) (now : Int) : Bool × SessionState :=
  let created := decide (now ≥ st.expires)
  (created,
    { expires := now + SESSION_LIFETIME,
      keyCreatedAt := if created then some now else st.keyCreatedAt })

/-- Run a sequence of authenticated requests at the given times, starting from
`st`; for each request, record whether `createsession` was issued and the
creation time of the token the signed request is then built with. -/
def sessionTrace (st : SessionState) : List Int → List (Bool × Option Int)
  | [] => []
  | t :: ts =>
    let step := sessionCheck st t
    (step.1, step.2.keyCreatedAt) :: sessionTrace step.2 ts

/-! ### endpoint.py: the retry loop of `Endpoint.request` -/

/-- The outcome of one attempt of the `for tries in range(5)` loop body of
`Endpoint.request` (endpoint.py 352-458), as seen from the loop: the
exception classes it catches and the `ret_msg` sentinels it branches on.
`ok` carries the parsed response, abstracted to an integer. -/
inductive AttemptOutcome where
  | connFail
  | respErr
  | unavailable
  | limitReached
  | invalidSession
  | ok (payload : Int)
deriving DecidableEq

/-- How a call of `Endpoint.request` terminates.  `httpException` wraps a
cause identified by the attempt index it arose at (`none` when `last_exc` was
never set). -/
inductive RequestResult where
  | ok (payload : Int)
  | httpException (cause : Option Nat)
  | unavailableExc
  | limitReachedExc
deriving DecidableEq

/-- The observable trace of one `Endpoint.request` call: the number of loop
iterations executed, the backoff sleeps performed (`await asyncio.sleep(tries
* 0.5 * gauss(1, 0.1))`, recorded by attempt index; the delay for attempt 0
is zero but the sleep still happens), the `Invalid session id.` expiry resets
(attempt index paired with the reset value `datetime.now()`, i.e. the current
time), and the result. -/
structure RequestTrace where
  attempts : Nat
  sleeps : List Nat
  expiryResets : List (Nat × Int)
  result : RequestResult
deriving DecidableEq

/-- The retry loop of `Endpoint.request` (endpoint.py 352-463).  `outcomes t`
is what attempt `t`'s body runs into; `nowAt t` is the current time during
attempt `t` (used by the invalid-session expiry reset).  Per attempt:
a successful parse returns; the `Invalid session id.` sentinel sets
`_session_expires` to the current time and `continue`s (skipping the sleep);
the `Daily request limit reached` sentinel raises `LimitReached`; a 503
raises `Unavailable`; `ClientResponseError` raises `HTTPException(exc)`;
`ClientConnectionError`/`TimeoutError` store `last_exc` and fall through to
the backoff sleep.  After 5 attempts, `HTTPException(last_exc)` is raised. -/
def requestLoopGo (outcomes : Nat → AttemptOutcome) (nowAt : Nat → Int) :
    Nat → Nat → Option Nat → List Nat → List (Nat × Int) → RequestTrace
  | 0, t, lastExc, sleeps, resets => ⟨t, sleeps, resets, .httpException lastExc⟩
  | fuel + 1, t, lastExc, sleeps, resets =>
    match outcomes t with
    | .ok v => ⟨t + 1, sleeps, resets, .ok v⟩
    | .unavailable => ⟨t + 1, sleeps, resets, .unavailableExc⟩
    | .limitReached => ⟨t + 1, sleeps, resets, .limitReachedExc⟩
    | .respErr => ⟨t + 1, sleeps, resets, .httpException (some t)⟩
    | .invalidSession =>
      requestLoopGo outcomes nowAt fuel (t + 1) lastExc sleeps (resets ++ [(t, nowAt t)])
    | .connFail =>
      requestLoopGo outcomes nowAt fuel (t + 1) (some t) (sleeps ++ [t]) resets

/-- One full `Endpoint.request` call: `for tries in range(5)`. -/
def request (outcomes : Nat → AttemptOutcome) (nowAt : Nat → Int) : RequestTrace :=
  requestLoopGo outcomes nowAt 5 0 none [] []

/-! ### api.py: `get_server_status` and `_status_loop` -/

/-- One record of a `gethirezserverstatus` response
(`responses.ServerStatusObject`), with the fields `get_server_status`
branches on (`environment`, `platform`, `ret_msg`) and — modelled from the
spec, since `status.py` is not among the sources — the derived per-platform
health used by `ServerStatus.all_up` / `limited_access`. -/
structure ApiStatusRecord where
  environment : String
  platform : String
  ret_msg : String
  up : Bool
  limited : Bool
deriving DecidableEq

/-- Modelled from the spec: `ServerStatus` (`status.py` is not among the
sources): "timestamped snapshot merged from two independent data sources
(primary API + a status page feed)"; `all_up` and `limited_access` are the
derived overall flags the status loop reads; "equality compares derived
per-platform status, not timestamps".  The status page group is opaque. -/
structure ServerStatus where
  timestamp : Int
  api_status : List ApiStatusRecord
  page_group : Option String
  all_up : Bool
  limited_access : Bool
deriving DecidableEq

/-- Modelled from the spec: the `ServerStatus(api_status, group)` constructor,
stamping the current time and deriving the overall flags from the merged
per-platform records. -/
def mkServerStatus (now : Int) (api : List ApiStatusRecord) (grp : Option String) :
    ServerStatus :=
  { timestamp := now, api_status := api, page_group := grp,
    all_up := api.all (·.up), limited_access := api.any (·.limited) }

/-- Modelled from the spec: `ServerStatus.__eq__` "compares derived
per-platform status, not timestamps" — everything except the timestamp. -/
def statusEq (a b : ServerStatus) : Bool :=
  a.api_status == b.api_status && a.page_group == b.page_group
    && a.all_up == b.all_up && a.limited_access == b.limited_access

instance {ε σ : Type} [DecidableEq ε] [DecidableEq σ] : DecidableEq (Except ε σ) := fun a b =>
  match a, b with
  | .error e, .error f =>
    if h : e = f then isTrue (by rw [h]) else isFalse (by intro hh; cases hh; exact h rfl)
  | .ok x, .ok y =>
    if h : x = y then isTrue (by rw [h]) else isFalse (by intro hh; cases hh; exact h rfl)
  | .error _, .ok _ => isFalse (by intro hh; cases hh)
  | .ok _, .error _ => isFalse (by intro hh; cases hh)

/-- The fetch outcomes `get_server_status` reacts to, one per data source:
`api` is the `gethirezserverstatus` request (`error` = `HTTPException` /
`Unavailable` / `LimitReached`); `page` is the status-page fetch (`error` =
timeout or client error; `ok` carries the `page_status.group("Paladins")`
lookup result, which can itself be `none`). -/
structure StatusFetchOutcome where
  api : Except Unit (List ApiStatusRecord)
  page : Except Unit (Option String)
deriving DecidableEq

/-- What the primary API source yields after error handling (api.py 176-182):
`[]` on an exception, `[]` when the first record carries a `ret_msg` error,
the record list otherwise. -/
def apiYield (fetch : StatusFetchOutcome) : List ApiStatusRecord :=
  match fetch.api with
  | .error _ => []
  | .ok [] => []
  | .ok (r :: rest) => if r.ret_msg ≠ "" then [] else r :: rest

/-- What the status-page source yields (api.py 190-200): `none` on an
exception, the group lookup result otherwise. -/
def pageYield (fetch : StatusFetchOutcome) : Option String :=
  match fetch.page with
  | .error _ => none
  | .ok g => g

/-- The PTS unification step (api.py 183-187): `next(...)` finds the first
record with `environment == "pts"` and overwrites its `platform` with the
environment. -/
def ptsUnify : List ApiStatusRecord → List ApiStatusRecord
  | [] => []
  | r :: rest =>
    if r.environment = "pts" then { r with platform := r.environment } :: rest
    else r :: ptsUnify rest

/-- The observable outcome of one `api.get_server_status` call: whether any
upstream fetching took place, the returned status or the `NotFound` error,
and the cached status afterwards. -/
structure ServerStatusCall where
  requested : Bool
  result : Except Unit ServerStatus
  new_cached : Option ServerStatus
deriving DecidableEq

/-- The fetch path of `get_server_status` (api.py 174-215): fetch from both
sources; when neither yields data, fall back to the cached status, raising
`NotFound` (modelled as `Except.error ()`) only when there is none; otherwise
build and cache a new snapshot. -/
def serverStatusFetchPath (cached : Option ServerStatus) (now : Int)
    (fetch : StatusFetchOutcome) : ServerStatusCall :=
  let api := ptsUnify (apiYield fetch)
  let group := pageYield fetch
  if api = [] ∧ group = none then
    match cached with
    | none => ⟨true, .error (), none⟩
    | some s => ⟨true, .ok s, some s⟩
  else
    let new := mkServerStatus now api group
    ⟨true, .ok new, some new⟩

/-- `api.get_server_status(force_refresh=...)` (api.py 139-215), with the
session-wide cache `_server_status` and the current time passed explicitly:
return the cached status untouched when it is younger than 1 minute
(`now < timestamp + timedelta(minutes=1)`) and no refresh is forced;
otherwise take the fetch path. -/
def get_server_status (cached : Option ServerStatus) (now : Int)
    (force_refresh : Bool) (fetch : StatusFetchOutcome) : ServerStatusCall :=
  match cached with
  | some s =>
    if ¬ force_refresh ∧ now < s.timestamp + 1 then ⟨false, .ok s, some s⟩
    else serverStatusFetchPath (some s) now fetch
  | none => serverStatusFetchPath none now fetch

/-- What one tick of `_status_loop` runs into: `get_server_status
(force_refresh=True)` succeeds, raises `NotFound`, or raises some other
exception. -/
inductive StatusFetchResult where
  | ok (s : ServerStatus)
  | notFound
  | exc
deriving DecidableEq

/-- The observable outcome of one `_status_loop` tick: whether the callback
was dispatched (as a detached task), and the delay slept before the next
tick. -/
structure TickResult where
  dispatched : Bool
  delay : Int
deriving DecidableEq

/-- One iteration of `PaladinsAPI._status_loop` (api.py 217-240).
`intervals = (check_interval, recheck_interval)`; `old_status` is
`_server_status` read before the fetch; `has_callback` is whether
`_status_callback` is registered.  The delay defaults to the check interval;
a `NotFound` or any other exception switches it to the recheck interval, and
so does a fetched status with any subsystem down or limited access.  The
callback task is created only when a previous status exists, differs from the
new one (`ServerStatus.__eq__` — `statusEq`), and a callback is registered. -/
def statusTick (intervals : Int × Int) (old_status : Option ServerStatus)
    (has_callback : Bool) (fetch : StatusFetchResult) : TickResult :=
  match fetch with
  | .ok new =>
    let dispatched :=
      match old_status with
      | some old => !statusEq old new && has_callback
      | none => false
    let delay := if !new.all_up || new.limited_access then intervals.2 else intervals.1
    ⟨dispatched, delay⟩
  | .notFound => ⟨false, intervals.2⟩
  | .exc => ⟨false, intervals.2⟩

/-! ## Theorems -/

/-! ### Helper lemmas about `_deduplicate` and `chunk` -/

theorem mem_dedupKeysAux {a : Int} {seen l : List Int} :
    a ∈ dedupKeysAux seen l → a ∈ l ∧ a ∉ seen := by
  induction l generalizing seen with
  | nil => simp [dedupKeysAux]
  | cons b t ih =>
    intro h
    simp only [dedupKeysAux] at h
    by_cases hb : b ∈ seen
    · simp only [hb, if_true] at h
      obtain ⟨h1, h2⟩ := ih h
      exact ⟨List.mem_cons_of_mem _ h1, h2⟩
    · simp only [hb, if_false, List.mem_cons] at h
      rcases h with h | h
      · subst h; exact ⟨List.mem_cons_self _ _, hb⟩
      · obtain ⟨h1, h2⟩ := ih h
        simp only [List.mem_cons, not_or] at h2
        exact ⟨List.mem_cons_of_mem _ h1, h2.2⟩

theorem nodup_dedupKeysAux (seen l : List Int) : (dedupKeysAux seen l).Nodup := by
  induction l generalizing seen with
  | nil => simp [dedupKeysAux]
  | cons b t ih =>
    simp only [dedupKeysAux]
    by_cases hb : b ∈ seen
    · simpa [hb] using ih seen
    · simp only [hb, if_false, List.nodup_cons]
      refine ⟨fun hmem => ?_, ih (b :: seen)⟩
      exact (mem_dedupKeysAux hmem).2 (List.mem_cons_self _ _)

theorem nodup_dedupKeys (l : List Int) : (dedupKeys l).Nodup :=
  nodup_dedupKeysAux [] l

theorem nodup_deduplicate (l to_remove : List Int) : (deduplicate l to_remove).Nodup :=
  (nodup_dedupKeys l).filter _

theorem not_mem_deduplicate_of_removed {v : Int} (l : List Int) {to_remove : List Int}
    (hv : v ∈ to_remove) : v ∉ deduplicate l to_remove := by
  intro h
  simp only [deduplicate, List.mem_filter, decide_eq_true_eq] at h
  exact h.2 hv

theorem chunkGo_congr (n : Nat) (l : List α) (fuel : Nat) (hfuel : l.length ≤ fuel) :
    chunkGo n fuel l = chunkGo n l.length l := by
  match l, fuel with
  | [], fuel => cases fuel <;> rfl
  | a :: t, fuel + 1 =>
    simp only [chunkGo, List.length_cons]
    have h1 := chunkGo_congr n (t.drop (n - 1)) fuel
      (by simp only [List.length_drop]; simp only [List.length_cons] at hfuel; omega)
    have h2 := chunkGo_congr n (t.drop (n - 1)) t.length
      (by simp only [List.length_drop]; omega)
    rw [h1, h2]
termination_by l.length
decreasing_by all_goals (simp only [List.length_drop, List.length_cons]; omega)

theorem chunk_nil (n : Nat) : chunk n ([] : List α) = [] := rfl

theorem chunk_cons (n : Nat) (a : α) (t : List α) :
    chunk n (a :: t) = (a :: t.take (n - 1)) :: chunk n (t.drop (n - 1)) := by
  simp only [chunk, List.length_cons, chunkGo]
  rw [chunkGo_congr n _ t.length (by simp only [List.length_drop]; omega)]

theorem chunk_flatten (n : Nat) (l : List α) : (chunk n l).flatten = l := by
  match l with
  | [] => rfl
  | a :: t =>
    rw [chunk_cons]
    have ih := chunk_flatten n (t.drop (n - 1))
    simp [ih]
termination_by l.length
decreasing_by simp only [List.length_drop, List.length_cons]; omega

theorem chunk_length (n : Nat) (hn : 0 < n) (l : List α) :
    (chunk n l).length = (l.length + n - 1) / n := by
  match l with
  | [] =>
    simp only [chunk_nil, List.length_nil]
    rw [eq_comm, Nat.div_eq_of_lt (by omega)]
  | a :: t =>
    rw [chunk_cons]
    have ih := chunk_length n hn (t.drop (n - 1))
    simp only [List.length_cons, ih, List.length_drop]
    have key : (t.length - (n - 1) + n - 1) / n = t.length / n := by
      rcases le_or_lt (n - 1) t.length with hle | hlt
      · congr 1; omega
      · have h1 : t.length - (n - 1) + n - 1 = n - 1 := by omega
        rw [h1, Nat.div_eq_of_lt (by omega), Nat.div_eq_of_lt (by omega)]
    have h2 : t.length + 1 + n - 1 = t.length + n := by omega
    rw [key, h2, Nat.add_div_right _ hn]
termination_by l.length
decreasing_by simp only [List.length_drop, List.length_cons]; omega

theorem chunk_mem_sublist (n : Nat) (l : List α) (c : List α) (hc : c ∈ chunk n l) :
    c.Sublist l := by
  match l with
  | [] => rw [chunk_nil] at hc; cases hc
  | a :: t =>
    rw [chunk_cons, List.mem_cons] at hc
    rcases hc with hc | hc
    · subst hc
      exact (List.take_sublist (n - 1) t).cons₂ a
    · have ih := chunk_mem_sublist n (t.drop (n - 1)) c hc
      exact ih.trans ((List.drop_sublist (n - 1) t).cons a)
termination_by l.length
decreasing_by simp only [List.length_drop, List.length_cons]; omega

/-! ### Helper lemmas about sorting by a position key -/

/-- Two lists that are permutations of each other, one sorted by a reflexive
comparison `le` and the other strictly sorted by an `lt` incompatible with the
reversed `le`, are equal. -/
theorem perm_sorted_strict_eq {le lt : α → α → Prop}
    (hasym : ∀ a b, lt a b → ¬ le b a) :
    ∀ l₁ l₂ : List α, l₁.Perm l₂ → l₁.Pairwise le → l₂.Pairwise lt → l₁ = l₂ := by
  intro l₁ l₂ hp h1 h2
  induction l₂ generalizing l₁ with
  | nil => exact hp.eq_nil
  | cons a t ih =>
    match l₁ with
    | [] => exact absurd hp.symm (by simp)
    | x :: t₁ =>
      have hxa : x = a := by
        by_contra hne
        have hx2 : x ∈ a :: t := hp.subset (List.mem_cons_self x t₁)
        have hxt : x ∈ t := by
          rcases List.mem_cons.mp hx2 with h | h
          · exact absurd h hne
          · exact h
        have hlt : lt a x := (List.pairwise_cons.mp h2).1 x hxt
        have ha1 : a ∈ x :: t₁ := hp.symm.subset (List.mem_cons_self a t)
        have hat : a ∈ t₁ := by
          rcases List.mem_cons.mp ha1 with h | h
          · exact absurd h.symm hne
          · exact h
        have hle : le x a := (List.pairwise_cons.mp h1).1 a hat
        exact hasym a x hlt hle
      subst hxa
      have hpt : t₁.Perm t := hp.cons_inv
      rw [ih t₁ hpt (List.pairwise_cons.mp h1).2 (List.pairwise_cons.mp h2).2]

/-- In a duplicate-free list, earlier elements have strictly smaller
`indexOf`. -/
theorem nodup_pairwise_indexOf (c : List Int) (h : c.Nodup) :
    c.Pairwise (fun a b => c.indexOf a < c.indexOf b) := by
  induction c with
  | nil => simp
  | cons x t ih =>
    rw [List.nodup_cons] at h
    rw [List.pairwise_cons]
    constructor
    · intro b hb
      have hbx : x ≠ b := fun he => h.1 (he ▸ hb)
      rw [List.indexOf_cons_self, List.indexOf_cons_ne _ hbx]
      omega
    · refine (ih h.2).imp_of_mem ?_
      intro a b ha hb hab
      have hax : x ≠ a := fun he => h.1 (he ▸ ha)
      have hbx : x ≠ b := fun he => h.1 (he ▸ hb)
      rw [List.indexOf_cons_ne _ hax, List.indexOf_cons_ne _ hbx]
      omega

/-- Sorting a permutation of a duplicate-free source sublist by the source's
index order recovers the sublist in source order (the `chunk_players.sort(key=
lambda p: chunk_ids.index(p.id))` step). -/
theorem insertionSort_indexOf_eq (c : List Int) (hnd : c.Nodup)
    (l target : List Int) (hperm : l.Perm target)
    (hsub : target.Sublist c) :
    l.insertionSort (fun a b => c.indexOf a ≤ c.indexOf b) = target := by
  have hsorted : (l.insertionSort (fun a b => c.indexOf a ≤ c.indexOf b)).Pairwise
      (fun a b => c.indexOf a ≤ c.indexOf b) := by
    haveI : IsTotal Int (fun a b => c.indexOf a ≤ c.indexOf b) :=
      ⟨fun a b => Nat.le_total _ _⟩
    haveI : IsTrans Int (fun a b => c.indexOf a ≤ c.indexOf b) :=
      ⟨fun _ _ _ hab hbc => Nat.le_trans hab hbc⟩
    exact List.sorted_insertionSort _ l
  have hstrict : target.Pairwise (fun a b => c.indexOf a < c.indexOf b) :=
    (nodup_pairwise_indexOf c hnd).sublist hsub
  exact perm_sorted_strict_eq (fun a b hab hba => by omega) _ _
    ((List.perm_insertionSort _ l).trans hperm) hsorted hstrict

/-! ### Claim C7 — `Champion.__bool__` -/

/-- Claim C7: a `Champion` is falsy in a boolean context iff it has a number
of cards different from 16 or a number of talents different from 3; a
champion constructed with exactly 16 cards, 3 talents and any abilities is
truthy. -/
theorem claim_C7 (c : Champion) (id : Int) (name : String)
    (abilities : List (Int × String)) (devices : List Device)
    (hc : (devices.filter (fun d => d.dtype == DeviceType.Card)).length = 16)
    (ht : (devices.filter (fun d => d.dtype == DeviceType.Talent)).length = 3) :
    (c.toBool = false ↔ (c.cards.length ≠ 16 ∨ c.talents.length ≠ 3))
    ∧ (mkChampion id name abilities devices).toBool = true := by
  constructor
  · simp only [Champion.toBool, Bool.and_eq_false_iff, beq_eq_false_iff_ne, ne_eq]
  · simp only [mkChampion, Champion.toBool, List.length_insertionSort, hc, ht]
    decide

/-- Witness for claim C7 at a champion with 16 cards and 3 talents. -/
theorem claim_C7_witness :
    ((mkChampion 1 "X" [] (((List.range 16).map
        (fun i => ⟨Int.ofNat i, "c", DeviceType.Card, 0⟩))
      ++ ((List.range 3).map
        (fun i => ⟨Int.ofNat i + 16, "t", DeviceType.Talent, 0⟩)))).toBool = false
      ↔ ((mkChampion 1 "X" [] (((List.range 16).map
            (fun i => ⟨Int.ofNat i, "c", DeviceType.Card, 0⟩))
          ++ ((List.range 3).map
            (fun i => ⟨Int.ofNat i + 16, "t", DeviceType.Talent, 0⟩)))).cards.length ≠ 16
        ∨ (mkChampion 1 "X" [] (((List.range 16).map
            (fun i => ⟨Int.ofNat i, "c", DeviceType.Card, 0⟩))
          ++ ((List.range 3).map
            (fun i => ⟨Int.ofNat i + 16, "t", DeviceType.Talent, 0⟩)))).talents.length ≠ 3))
    ∧ (mkChampion 1 "X" [] (((List.range 16).map
        (fun i => ⟨Int.ofNat i, "c", DeviceType.Card, 0⟩))
      ++ ((List.range 3).map
        (fun i => ⟨Int.ofNat i + 16, "t", DeviceType.Talent, 0⟩)))).toBool = true :=
  claim_C7 _ 1 "X" [] _ (by decide) (by decide)

/-! ### Claim C10 — player id 0 -/

/-- Claim C10: a player id of 0 is treated as nonexistent without contacting
the upstream API: `get_player(0)` and `get_player('0')` raise `NotFound`
before issuing any request; `get_players` removes id 0 during deduplication,
so no issued request ever contains it, and when no ids remain it returns an
empty list without issuing any request. -/
theorem claim_C10 (ids ids₂ : List Int) (rp : Bool)
    (up : List Int → List PlayerRecord)
    (hempty : deduplicate ids [0] = []) :
    get_player_pre (.int 0) = .notFound
    ∧ get_player_pre (.str "0") = .notFound
    ∧ 0 ∉ ((get_players ids₂ rp up).1).flatten
    ∧ get_players ids rp up = ([], []) := by
  refine ⟨rfl, rfl, ?_, ?_⟩
  · show 0 ∉ (chunk 20 (deduplicate ids₂ [0])).flatten
    rw [chunk_flatten]
    exact not_mem_deduplicate_of_removed ids₂ (List.mem_singleton.mpr rfl)
  · show (chunk 20 (deduplicate ids [0]),
      ((chunk 20 (deduplicate ids [0])).map
        (fun c => processPlayerChunk rp c (up c))).flatten) = ([], [])
    rw [hempty, chunk_nil]
    rfl

/-- Witness for claim C10 at an input consisting only of zeros. -/
theorem claim_C10_witness :
    get_player_pre (.int 0) = .notFound
    ∧ get_player_pre (.str "0") = .notFound
    ∧ 0 ∉ ((get_players [0, 3, 0, 7] false (fun _ => [])).1).flatten
    ∧ get_players [0, 0, 0] false (fun _ => []) = ([], []) :=
  claim_C10 [0, 0, 0] [0, 3, 0, 7] false (fun _ => []) (by decide)

/-! ### Claim C2 — session expiry check -/

/-- Claim C2 counterexample: starting from the constructor state (expiry at
minute 0, no token yet), authenticated requests at minutes 0, 14 and 28 give:
request 1 creates a token at minute 0; requests 2 and 3 issue no
`createsession` — yet the signed request at minute 28 is built with the token
created at minute 0, which is 28 > 15 minutes before the request, because the
stored expiry is refreshed to `now + 15min` on every authenticated call. -/
theorem claim_C2_counterexample :
    sessionTrace ⟨0, none⟩ [0, 14, 28]
      = [(true, some 0), (false, some 0), (false, some 0)]
    ∧ (28 : Int) - 0 > SESSION_LIFETIME := by decide

/-- Claim C2 (amended): for every authenticated call, the session block under
the session lock issues `createsession` iff the current time is at or past
the stored expiry; in both branches the stored expiry is then refreshed to
`now + SESSION_LIFETIME` (15 minutes), so validity slides from the last
authenticated use — a token is recreated only when 15 minutes have passed
since the previous authenticated request, and a signed request may be issued
with a token created more than 15 minutes earlier. -/
theorem claim_C2_amended (st : SessionState) (now : Int) :
    ((sessionCheck st now).1 = true ↔ now ≥ st.expires)
    ∧ (sessionCheck st now).2.expires = now + SESSION_LIFETIME
    ∧ ((sessionCheck st now).1 = true →
        (sessionCheck st now).2.keyCreatedAt = some now)
    ∧ ((sessionCheck st now).1 = false →
        (sessionCheck st now).2.keyCreatedAt = st.keyCreatedAt) := by
  by_cases h : now ≥ st.expires <;> simp [sessionCheck, h]

/-- Witness for the amended claim C2 at the constructor state and time 0. -/
theorem claim_C2_witness :
    ((sessionCheck ⟨0, none⟩ 0).1 = true ↔ (0 : Int) ≥ 0)
    ∧ (sessionCheck ⟨0, none⟩ 0).2.expires = 0 + SESSION_LIFETIME
    ∧ ((sessionCheck ⟨0, none⟩ 0).1 = true →
        (sessionCheck ⟨0, none⟩ 0).2.keyCreatedAt = some 0)
    ∧ ((sessionCheck ⟨0, none⟩ 0).1 = false →
        (sessionCheck ⟨0, none⟩ 0).2.keyCreatedAt = none) :=
  claim_C2_amended ⟨0, none⟩ 0

/-! ### Claim C9 — the status-monitor tick -/

/-- Claim C9: on every tick of the status-monitor loop, the callback is
dispatched (as a detached task) only when a previous status exists and the
newly fetched status differs from it; the delay before the next tick is the
recheck interval whenever the fetch failed (`NotFound` or any other
exception) or the fetched status reports any subsystem down or limited
access, and the check interval otherwise. -/
theorem claim_C9 (iv : Int × Int) (old : Option ServerStatus) (cb : Bool)
    (f : StatusFetchResult) (s : ServerStatus) :
    ((statusTick iv old cb f).dispatched = true →
      ∃ o n, old = some o ∧ f = .ok n ∧ statusEq o n = false ∧ cb = true)
    ∧ (f = .notFound ∨ f = .exc → (statusTick iv old cb f).delay = iv.2)
    ∧ (f = .ok s →
        (statusTick iv old cb f).delay
          = if !s.all_up || s.limited_access then iv.2 else iv.1) := by
  refine ⟨?_, ?_, ?_⟩
  · cases f with
    | ok n =>
      cases old with
      | some o =>
        simp only [statusTick, Bool.and_eq_true, Bool.not_eq_true'] at *
        intro h
        exact ⟨o, n, rfl, rfl, h.1, h.2⟩
      | none => simp [statusTick]
    | notFound => simp [statusTick]
    | exc => simp [statusTick]
  · rintro (h | h) <;> subst h <;> rfl
  · rintro rfl
    rfl

/-- Witness for claim C9 at a concrete tick: previous status differs from the
fetched one, all subsystems up. -/
theorem claim_C9_witness :
    ((statusTick (3, 1) (some ⟨0, [], none, true, false⟩) true
        (.ok ⟨5, [], none, true, true⟩)).dispatched = true →
      ∃ o n, (some ⟨0, [], none, true, false⟩ : Option ServerStatus) = some o
        ∧ (StatusFetchResult.ok ⟨5, [], none, true, true⟩ : StatusFetchResult) = .ok n
        ∧ statusEq o n = false ∧ true = true)
    ∧ ((StatusFetchResult.ok ⟨5, [], none, true, true⟩ : StatusFetchResult) = .notFound
        ∨ (StatusFetchResult.ok ⟨5, [], none, true, true⟩ : StatusFetchResult) = .exc →
        (statusTick (3, 1) (some ⟨0, [], none, true, false⟩) true
          (.ok ⟨5, [], none, true, true⟩)).delay = (3, 1).2)
    ∧ ((StatusFetchResult.ok ⟨5, [], none, true, true⟩ : StatusFetchResult)
          = .ok ⟨5, [], none, true, true⟩ →
        (statusTick (3, 1) (some ⟨0, [], none, true, false⟩) true
          (.ok ⟨5, [], none, true, true⟩)).delay
          = if !(⟨5, [], none, true, true⟩ : ServerStatus).all_up
              || (⟨5, [], none, true, true⟩ : ServerStatus).limited_access
            then (3, 1).2 else (3, 1).1) :=
  claim_C9 (3, 1) (some ⟨0, [], none, true, false⟩) true
    (.ok ⟨5, [], none, true, true⟩) ⟨5, [], none, true, true⟩

/-! ### Claim C3 — the retry loop of `Endpoint.request` -/

/-- The retry loop executes at most `t + fuel` iterations when started at
attempt `t` with `fuel` iterations left. -/
theorem requestLoopGo_attempts_le (outcomes : Nat → AttemptOutcome) (nowAt : Nat → Int)
    (fuel : Nat) : ∀ (t : Nat) (lastExc : Option Nat) (sleeps : List Nat)
      (resets : List (Nat × Int)),
    (requestLoopGo outcomes nowAt fuel t lastExc sleeps resets).attempts ≤ t + fuel := by
  induction fuel with
  | zero => intro t lastExc sleeps resets; simp [requestLoopGo]
  | succ fuel ih =>
    intro t lastExc sleeps resets
    cases h : outcomes t with
    | ok v => simp [requestLoopGo, h]
    | unavailable => simp [requestLoopGo, h]
    | limitReached => simp [requestLoopGo, h]
    | respErr => simp [requestLoopGo, h]
    | invalidSession =>
      simp only [requestLoopGo, h]
      calc (requestLoopGo outcomes nowAt fuel (t + 1) lastExc sleeps
              (resets ++ [(t, nowAt t)])).attempts
          ≤ (t + 1) + fuel := ih (t + 1) lastExc sleeps (resets ++ [(t, nowAt t)])
        _ = t + (fuel + 1) := by omega
    | connFail =>
      simp only [requestLoopGo, h]
      calc (requestLoopGo outcomes nowAt fuel (t + 1) (some t) (sleeps ++ [t])
              resets).attempts
          ≤ (t + 1) + fuel := ih (t + 1) (some t) (sleeps ++ [t]) resets
        _ = t + (fuel + 1) := by omega

/-- Claim C3: `Endpoint.request` makes at most 5 attempts per call; a
transport failing on attempts 0 and 1 and succeeding on attempt 2 yields the
successful result with exactly the 2 intervening backoff sleeps; a transport
failing on all 5 attempts raises `HTTPException` wrapping the last cause (the
attempt-4 exception); the `Invalid session id.` sentinel resets the stored
session expiry to the current time and retries the same call (without a
backoff sleep). -/
theorem claim_C3 (outcomes : Nat → AttemptOutcome) (nowAt : Nat → Int) (v : Int) :
    (request outcomes nowAt).attempts ≤ 5
    ∧ (outcomes 0 = .connFail → outcomes 1 = .connFail → outcomes 2 = .ok v →
        request outcomes nowAt = ⟨3, [0, 1], [], .ok v⟩)
    ∧ ((∀ t, t < 5 → outcomes t = .connFail) →
        request outcomes nowAt = ⟨5, [0, 1, 2, 3, 4], [], .httpException (some 4)⟩)
    ∧ (outcomes 0 = .invalidSession → outcomes 1 = .ok v →
        request outcomes nowAt = ⟨2, [], [(0, nowAt 0)], .ok v⟩) := by
  refine ⟨requestLoopGo_attempts_le outcomes nowAt 5 0 none [] [], ?_, ?_, ?_⟩
  · intro h0 h1 h2
    simp [request, requestLoopGo, h0, h1, h2]
  · intro h
    simp [request, requestLoopGo, h 0 (by omega), h 1 (by omega), h 2 (by omega),
      h 3 (by omega), h 4 (by omega)]
  · intro h0 h1
    simp [request, requestLoopGo, h0, h1]

/-- Witness for claim C3 at outcomes that fail twice and then succeed. -/
theorem claim_C3_witness :
    (request (fun t => if t < 2 then .connFail else .ok 7) (fun _ => 0)).attempts ≤ 5
    ∧ ((fun t => if t < 2 then .connFail else .ok 7) 0 = AttemptOutcome.connFail →
        (fun t => if t < 2 then .connFail else .ok 7) 1 = AttemptOutcome.connFail →
        (fun t => if t < 2 then .connFail else .ok 7) 2 = AttemptOutcome.ok 7 →
        request (fun t => if t < 2 then .connFail else .ok 7) (fun _ => 0)
          = ⟨3, [0, 1], [], .ok 7⟩)
    ∧ ((∀ t, t < 5 → (fun t => if t < 2 then .connFail else .ok 7) t
          = AttemptOutcome.connFail) →
        request (fun t => if t < 2 then .connFail else .ok 7) (fun _ => 0)
          = ⟨5, [0, 1, 2, 3, 4], [], .httpException (some 4)⟩)
    ∧ ((fun t => if t < 2 then .connFail else .ok 7) 0 = AttemptOutcome.invalidSession →
        (fun t => if t < 2 then .connFail else .ok 7) 1 = AttemptOutcome.ok 7 →
        request (fun t => if t < 2 then .connFail else .ok 7) (fun _ => 0)
          = ⟨2, [], [(0, (fun _ : Nat => (0 : Int)) 0)], .ok 7⟩) :=
  claim_C3 (fun t => if t < 2 then .connFail else .ok 7) (fun _ => 0) 7

/-! ### Claim C6 — `_cache_object` identity stability -/

/-- Setting an absent key in a Python dict appends it, and a subsequent get
finds it. -/
theorem dictGet_append_new {κ ν : Type} [BEq κ] [LawfulBEq κ]
    (d : List (κ × ν)) (k : κ) (v : ν)
    (h : d.find? (fun kv => kv.1 == k) = none) :
    dictGet (d ++ [(k, v)]) k = some v := by
  have hpos : List.find? (fun kv => kv.1 == k) [(k, v)] = some (k, v) :=
    List.find?_cons_of_pos _ (by simp)
  simp [dictGet, List.find?_append, h, hpos]

/-- Setting an absent key in a Python dict appends it, and a subsequent get
finds it. -/
theorem dictGet_dictSet_self {κ ν : Type} [BEq κ] [LawfulBEq κ]
    (d : List (κ × ν)) (k : κ) (v : ν) (h : dictGet d k = none) :
    dictGet (dictSet d k v) k = some v := by
  have hfind : d.find? (fun kv => kv.1 == k) = none := by
    rcases hf : d.find? (fun kv => kv.1 == k) with _ | kv
    · exact hf
    · rw [dictGet, hf] at h
      cases h
  rw [dictSet, if_neg (by simp [hfind])]
  exact dictGet_append_new d k v hfind

/-- Claim C6 counterexample: on an empty lookup (primary index and shadow maps
both lack id 0), calling `_cache_object(id=0, name=None)` twice returns two
distinct `CacheObject` instances: id 0 is the sentinel default, so the first
allocation is never recorded in the shadow id map and the second call
allocates afresh (`allocId` 0 vs 1). -/
theorem claim_C6_counterexample :
    cache_object ⟨[], [], [], [], 0⟩ (some 0) none
      = .ok (⟨0, 0, ""⟩, ⟨[], [], [], [], 1⟩)
    ∧ cache_object ⟨[], [], [], [], 1⟩ (some 0) none
      = .ok (⟨1, 0, ""⟩, ⟨[], [], [], [], 2⟩)
    ∧ (⟨0, 0, ""⟩ : CacheObject).allocId ≠ (⟨1, 0, ""⟩ : CacheObject).allocId := by
  refine ⟨rfl, rfl, by decide⟩

/-- Claim C6 (amended): for every lookup whose primary index and shadow id map
lack id `X`, with `X ≠ 0` (ids equal to the sentinel default 0 are never
recorded), calling `_cache_object(id=X, name=None)` twice returns the same
`CacheObject` instance both times: the first call allocates a `CacheObject`
with id `X`, records it in the shadow id map without touching the primary
index, and the second call returns that recorded object unchanged. -/
theorem claim_C6_amended (st : LookupState) (X : Int) (hX : X ≠ 0)
    (h1 : dictGet st.id_lookup X = none)
    (h2 : dictGet st.cached_id_lookup X = none) :
    ∃ st', cache_object st (some X) none
        = .ok (⟨st.nextAlloc, X, ""⟩, st')
      ∧ st'.id_lookup = st.id_lookup
      ∧ st'.name_lookup = st.name_lookup
      ∧ st'.cached_name_lookup = st.cached_name_lookup
      ∧ cache_object st' (some X) none = .ok (⟨st.nextAlloc, X, ""⟩, st') := by
  have hdef : (⟨st.nextAlloc, X, ""⟩ : CacheObject).is_default_id = false := by
    simp [CacheObject.is_default_id, hX]
  refine ⟨{ st with
      cached_id_lookup := dictSet st.cached_id_lookup X ⟨st.nextAlloc, X, ""⟩,
      nextAlloc := st.nextAlloc + 1 }, ?_, rfl, rfl, rfl, ?_⟩
  · rw [cache_object, h1, cacheObjectFallback, h2, cacheObjectNameFallback, cacheObjectAlloc]
    simp only [Option.getD_some, Option.getD_none, hdef, Bool.not_eq_true,
      CacheObject.is_default_name, beq_self_eq_true, if_true]
    rfl
  · have hget : dictGet (dictSet st.cached_id_lookup X (⟨st.nextAlloc, X, ""⟩ : CacheObject)) X
        = some (⟨st.nextAlloc, X, ""⟩ : CacheObject) :=
      dictGet_dictSet_self st.cached_id_lookup X _ h2
    rw [cache_object]
    show (match dictGet st.id_lookup X with
      | some o => Except.ok (o, _)
      | none => cacheObjectFallback _ (some X) none) = _
    rw [h1, cacheObjectFallback, hget]
    simp

/-- Witness for the amended claim C6 at an empty lookup and id 42. -/
theorem claim_C6_witness :
    ∃ st', cache_object ⟨[], [], [], [], 0⟩ (some 42) none
        = .ok (⟨(⟨[], [], [], [], 0⟩ : LookupState).nextAlloc, 42, ""⟩, st')
      ∧ st'.id_lookup = (⟨[], [], [], [], 0⟩ : LookupState).id_lookup
      ∧ st'.name_lookup = (⟨[], [], [], [], 0⟩ : LookupState).name_lookup
      ∧ st'.cached_name_lookup = (⟨[], [], [], [], 0⟩ : LookupState).cached_name_lookup
      ∧ cache_object st' (some 42) none
        = .ok (⟨(⟨[], [], [], [], 0⟩ : LookupState).nextAlloc, 42, ""⟩, st') :=
  claim_C6_amended ⟨[], [], [], [], 0⟩ 42 (by decide) (by rfl) (by rfl)

/-! ### Claim C8 — `get_server_status` -/

/-- Claim C8: `get_server_status` returns the cached status without issuing
any upstream request when `force_refresh` is false and the cached status is
less than 1 minute old; when it does fetch and both the primary API and the
status-page feed fail to yield data, it returns the previously cached status
if one exists, and raises `NotFound` if and only if no cached status
exists. -/
theorem claim_C8 (cached : Option ServerStatus) (s : ServerStatus) (now : Int)
    (force_refresh : Bool) (fetch : StatusFetchOutcome) :
    (force_refresh = false → cached = some s → now < s.timestamp + 1 →
      get_server_status cached now force_refresh fetch = ⟨false, .ok s, some s⟩)
    ∧ (apiYield fetch = [] → pageYield fetch = none →
        ((get_server_status cached now force_refresh fetch).result = .error ()
          ↔ cached = none))
    ∧ (apiYield fetch = [] → pageYield fetch = none → cached = some s →
        (get_server_status cached now force_refresh fetch).result = .ok s) := by
  refine ⟨?_, ?_, ?_⟩
  · rintro rfl rfl hfresh
    simp [get_server_status, hfresh]
  · intro hapi hpage
    have hpts : ptsUnify (apiYield fetch) = [] := by rw [hapi]; rfl
    cases cached with
    | none =>
      simp [get_server_status, serverStatusFetchPath, hpts, hpage]
    | some s₀ =>
      rw [get_server_status]
      split
      · simp
      · simp [serverStatusFetchPath, hpts, hpage]
  · intro hapi hpage hc
    subst hc
    have hpts : ptsUnify (apiYield fetch) = [] := by rw [hapi]; rfl
    rw [get_server_status]
    split
    · rfl
    · simp [serverStatusFetchPath, hpts, hpage]

/-- Witness for claim C8 at a fresh cached status and failing sources. -/
theorem claim_C8_witness :
    (false = false → (some ⟨5, [], none, true, false⟩ : Option ServerStatus)
        = some ⟨5, [], none, true, false⟩ →
      (5 : Int) < (⟨5, [], none, true, false⟩ : ServerStatus).timestamp + 1 →
      get_server_status (some ⟨5, [], none, true, false⟩) 5 false ⟨.error (), .error ()⟩
        = ⟨false, .ok ⟨5, [], none, true, false⟩, some ⟨5, [], none, true, false⟩⟩)
    ∧ (apiYield ⟨.error (), .error ()⟩ = [] → pageYield ⟨.error (), .error ()⟩ = none →
        ((get_server_status (some ⟨5, [], none, true, false⟩) 5 false
            ⟨.error (), .error ()⟩).result = .error ()
          ↔ (some ⟨5, [], none, true, false⟩ : Option ServerStatus) = none))
    ∧ (apiYield ⟨.error (), .error ()⟩ = [] → pageYield ⟨.error (), .error ()⟩ = none →
        (some ⟨5, [], none, true, false⟩ : Option ServerStatus)
          = some ⟨5, [], none, true, false⟩ →
        (get_server_status (some ⟨5, [], none, true, false⟩) 5 false
          ⟨.error (), .error ()⟩).result = .ok ⟨5, [], none, true, false⟩) :=
  claim_C8 (some ⟨5, [], none, true, false⟩) ⟨5, [], none, true, false⟩ 5 false
    ⟨.error (), .error ()⟩

/-! ### Claim C4 — `get_fuzzy_matches` result properties -/

/-- Claim C4: for every fuzzy query with a valid cutoff `co ∈ [0, 1]` and a
valid positive integer limit, `get_fuzzy_matches` returns only elements whose
similarity ratio against the lowercased query name is at least `co`, returns
at most `limit` elements, and returns them sorted in descending order of
similarity score. -/
theorem claim_C4 (rq q r : String → String → ℚ) (bank : List (String × Int))
    (nm : String) (lim : Int) (co : ℚ)
    (hlim : lim > 0) (hco : 0 ≤ co ∧ co ≤ 1) :
    ∃ res, get_fuzzy_matches rq q r bank (.str nm) (.int lim) (.float co) = .ok res
      ∧ res.length ≤ lim.toNat
      ∧ (∀ x ∈ res, co ≤ x.2 ∧ ∃ k, (k, x.1) ∈ bank ∧ x.2 = r k nm.toLower)
      ∧ res.Pairwise (fun a b => a.2 ≥ b.2) := by
  have hsorted : ∀ l : List (Int × ℚ),
      (l.insertionSort (fun a b => a.2 ≥ b.2)).Pairwise (fun a b => a.2 ≥ b.2) := by
    intro l
    haveI : IsTotal (Int × ℚ) (fun a b => a.2 ≥ b.2) := ⟨fun a b => le_total b.2 a.2⟩
    haveI : IsTrans (Int × ℚ) (fun a b => a.2 ≥ b.2) :=
      ⟨fun a b c hab hbc => le_trans hbc hab⟩
    exact List.sorted_insertionSort _ l
  rw [get_fuzzy_matches, if_neg (not_not_intro hlim), if_neg (not_not_intro hco)]
  refine ⟨_, rfl, ?_, ?_, ?_⟩
  · exact List.length_take_le _ _
  · intro x hx
    have hx₁ := List.mem_of_mem_take hx
    have hx₂ := (List.perm_insertionSort (fun a b : Int × ℚ => a.2 ≥ b.2) _).subset hx₁
    obtain ⟨kv, hkv, heq⟩ := List.mem_filterMap.mp hx₂
    by_cases hcond : rq kv.1 nm.toLower ≥ co ∧ q kv.1 nm.toLower ≥ co
        ∧ r kv.1 nm.toLower ≥ co
    · rw [if_pos hcond] at heq
      obtain rfl := Option.some_injective _ heq
      exact ⟨hcond.2.2, kv.1, by simpa using hkv, rfl⟩
    · rw [if_neg hcond] at heq
      cases heq
  · exact (hsorted _).sublist (List.take_sublist _ _)

/-- Witness for claim C4 at a one-element bank, constant similarity 1,
limit 3, cutoff 1. -/
theorem claim_C4_witness :
    ∃ res, get_fuzzy_matches (fun _ _ => 1) (fun _ _ => 1) (fun _ _ => 1)
        [("a", (5 : Int))] (.str "a") (.int 3) (.float 1) = .ok res
      ∧ res.length ≤ (3 : Int).toNat
      ∧ (∀ x ∈ res, (1 : ℚ) ≤ x.2
          ∧ ∃ k, (k, x.1) ∈ [("a", (5 : Int))] ∧ x.2 = (fun _ _ => (1 : ℚ)) k "a".toLower)
      ∧ res.Pairwise (fun a b => a.2 ≥ b.2) :=
  claim_C4 (fun _ _ => 1) (fun _ _ => 1) (fun _ _ => 1) [("a", (5 : Int))] "a" 3 1
    (by decide) (by constructor <;> decide)

/-! ### Claim C5 — `get_fuzzy_matches` argument validation -/

/-- Claim C5 counterexample: `cutoff = 1` as a Python `int` is a number in
`[0, 1]` and `limit = 3` is a positive integer, yet the call raises
`TypeError` — `isinstance(cutoff, float)` rejects `int` values — instead of
returning normally. -/
theorem claim_C5_counterexample :
    get_fuzzy_matches (fun _ _ => 1) (fun _ _ => 1) (fun _ _ => 1)
      ([] : List (String × Int)) (.str "a") (.int 3) (.int 1)
      = .error (.typeError "cutoff has to be a float in 0-1 range")
    ∧ (0 : ℚ) ≤ 1 ∧ (1 : ℚ) ≤ 1 ∧ (3 : Int) > 0 := by
  refine ⟨rfl, by decide, by decide, by decide⟩

/-- Claim C5 (amended): `get_fuzzy_matches` raises iff its arguments violate
the precondition that `cutoff` is a `float` in `[0, 1]` and `limit` is a
positive `int` (and `name` a `str`); a wrong argument type — including an
`int` cutoff such as `0` or `1` — raises `TypeError`, an out-of-range value
raises `ValueError`; for every `float` cutoff in `[0, 1]` and positive `int`
limit the call returns normally. -/
theorem claim_C5_amended (rq q r : String → String → ℚ) (bank : List (String × Int))
    (name limit cutoff : PyVal) :
    ((∃ e, get_fuzzy_matches rq q r bank name limit cutoff = .error e)
      ↔ ¬ ((∃ s, name = .str s)
            ∧ (∃ l, limit = .int l ∧ l > 0)
            ∧ (∃ c, cutoff = .float c ∧ 0 ≤ c ∧ c ≤ 1)))
    ∧ (∀ m, get_fuzzy_matches rq q r bank name limit cutoff = .error (.typeError m) →
        (∀ s, name ≠ .str s) ∨ (∀ l, limit ≠ .int l) ∨ (∀ c, cutoff ≠ .float c))
    ∧ (∀ m, get_fuzzy_matches rq q r bank name limit cutoff = .error (.valueError m) →
        ∃ s l c, name = .str s ∧ limit = .int l ∧ cutoff = .float c
          ∧ ¬ (l > 0 ∧ 0 ≤ c ∧ c ≤ 1)) := by
  rcases name with n | nq | ns | _ <;> rcases limit with ll | lq | ls | _ <;>
      rcases cutoff with cn | cq | cs | _ <;>
    (try simp [get_fuzzy_matches])
  by_cases h1 : ll ≤ 0
  · rw [if_pos h1]
    refine ⟨?_, ?_, ?_⟩
    · constructor
      · intro _ h
        omega
      · intro _
        exact ⟨_, rfl⟩
    · intro m h
      simp at h
    · intro m _ h
      omega
  · rw [if_neg h1]
    by_cases h2 : 0 ≤ cq → 1 < cq
    · rw [if_pos h2]
      refine ⟨?_, ?_, ?_⟩
      · constructor
        · intro _ _
          exact h2
        · intro _
          exact ⟨_, rfl⟩
      · intro m h
        simp at h
      · intro m _ _
        exact h2
    · rw [if_neg h2]
      refine ⟨?_, ?_, ?_⟩
      · constructor
        · rintro ⟨e, he⟩
          simp at he
        · intro hr
          exact absurd (hr (by omega)) h2
      · intro m h
        simp at h
      · intro m h
        simp at h

/-- Witness for the amended claim C5 at a float cutoff 0 and limit 3. -/
theorem claim_C5_witness :
    ((∃ e, get_fuzzy_matches (fun _ _ => 1) (fun _ _ => 1) (fun _ _ => 1)
          [("a", (5 : Int))] (.str "a") (.int 3) (.float 0) = .error e)
      ↔ ¬ ((∃ s, PyVal.str "a" = .str s)
            ∧ (∃ l, PyVal.int 3 = .int l ∧ l > 0)
            ∧ (∃ c, PyVal.float 0 = .float c ∧ 0 ≤ c ∧ c ≤ 1)))
    ∧ (∀ m, get_fuzzy_matches (fun _ _ => 1) (fun _ _ => 1) (fun _ _ => 1)
          [("a", (5 : Int))] (.str "a") (.int 3) (.float 0) = .error (.typeError m) →
        (∀ s, PyVal.str "a" ≠ .str s) ∨ (∀ l, PyVal.int 3 ≠ .int l)
          ∨ (∀ c, PyVal.float 0 ≠ .float c))
    ∧ (∀ m, get_fuzzy_matches (fun _ _ => 1) (fun _ _ => 1) (fun _ _ => 1)
          [("a", (5 : Int))] (.str "a") (.int 3) (.float 0) = .error (.valueError m) →
        ∃ s l c, PyVal.str "a" = .str s ∧ PyVal.int 3 = .int l
          ∧ PyVal.float 0 = .float c ∧ ¬ (l > 0 ∧ 0 ≤ c ∧ c ≤ 1)) :=
  claim_C5_amended (fun _ _ => 1) (fun _ _ => 1) (fun _ _ => 1) [("a", (5 : Int))]
    (.str "a") (.int 3) (.float 0)

/-! ### Claim C1 — batch fetch chunking, ordering and error handling -/

theorem filterMap_guard_eq_filter (p : Int → Prop) [DecidablePred p] (l : List Int) :
    l.filterMap (fun i => if p i then some i else none)
      = l.filter (fun i => decide (p i)) := by
  induction l with
  | nil => rfl
  | cons a t ih => by_cases h : p a <;> simp [h, ih]

/-- One `get_players` chunk with an upstream that returns exactly one record
per requested id (in any order, no extra ids): the non-errored requested ids,
re-sorted to request order — i.e. in request order, errored ids omitted. -/
theorem processPlayerChunk_perm_filter (c : List Int) (hnd : c.Nodup)
    (err : Int → String) (resp : List PlayerRecord)
    (hresp : resp.Perm (c.map (fun i => ⟨i, err i, none⟩))) :
    processPlayerChunk false c resp = c.filter (fun i => decide (err i = "")) := by
  simp only [processPlayerChunk, Bool.false_eq_true, if_false]
  have h1 := hresp.filterMap (fun p : PlayerRecord =>
    if p.ret_msg = "" then some p.pid else none)
  rw [List.filterMap_map] at h1
  have h2 : ((fun p : PlayerRecord =>
      if p.ret_msg = "" then some p.pid else none)
      ∘ (fun i => (⟨i, err i, none⟩ : PlayerRecord)))
      = fun i => if err i = "" then some i else none := by
    funext i
    simp [Function.comp]
  rw [h2, filterMap_guard_eq_filter] at h1
  exact insertionSort_indexOf_eq c hnd _ _ h1 (List.filter_sublist c)

/-- The `get_matches` chunk loop with no errored record: one request per
chunk, and each chunk contributes its response's match ids in
first-occurrence order. -/
theorem get_matches_go_no_err (up : List Int → List MatchRecord)
    (hup : ∀ c r, r ∈ up c → r.ret_msg = "") (cs : List (List Int)) :
    get_matches_go up cs
      = (cs, .ok (cs.map (fun c => dedupKeys ((up c).map (·.mid)))).flatten) := by
  induction cs with
  | nil => rfl
  | cons c cs ih =>
    have hcond : ¬ ∃ x ∈ up c, ¬ x.ret_msg = "" := by
      rintro ⟨x, hx, hne⟩
      exact hne (hup c x hx)
    simp [get_matches_go, hcond, ih, Except.map]

/-- The `get_matches` chunk loop raises `HTTPException` whenever any chunk's
response contains an errored record. -/
theorem get_matches_go_err (up : List Int → List MatchRecord) (cs : List (List Int))
    (hex : ∃ c ∈ cs, ∃ r ∈ up c, r.ret_msg ≠ "") :
    (get_matches_go up cs).2 = .error () := by
  induction cs with
  | nil => simp at hex
  | cons c cs ih =>
    by_cases hcond : ∃ x ∈ up c, ¬ x.ret_msg = ""
    · simp [get_matches_go, hcond]
    · obtain ⟨c₀, hc₀, r, hr, hne⟩ := hex
      have hc₀cs : c₀ ∈ cs := by
        rcases List.mem_cons.mp hc₀ with h | h
        · subst h
          exact absurd ⟨r, hr, hne⟩ hcond
        · exact h
      have hrest := ih ⟨c₀, hc₀cs, r, hr, hne⟩
      simp [get_matches_go, hcond, hrest, Except.map]

/-- Claim C1 counterexample: two distinct match ids in a single chunk.  With
an upstream response whose second record is errored, `get_matches` raises
`HTTPException` (`Except.error ()`) instead of silently omitting the errored
id; with an error-free response in reversed order, the output is `[2, 1]` —
the upstream response order — not the deduplicated input order `[1, 2]`. -/
theorem claim_C1_counterexample :
    get_matches [1, 2] (fun _ => [⟨1, ""⟩, ⟨2, "Error"⟩]) = ([[1, 2]], .error ())
    ∧ get_matches [1, 2] (fun _ => [⟨2, ""⟩, ⟨1, ""⟩]) = ([[1, 2]], .ok [2, 1])
    ∧ [2, 1] ≠ [1, 2] := by
  refine ⟨rfl, rfl, by decide⟩

/-- Claim C1 (amended): batch inputs are deduplicated (`get_players` also
removes id 0) and requests are issued in fixed-size chunks — exactly
`ceil(n/20)` `getplayerbatch` requests, and, when no record errors,
exactly `ceil(n/10)` `getmatchdetailsbatch` requests, for `n` unique ids.
`get_players` re-sorts each chunk to the deduplicated input order and
silently omits ids the upstream reports as errored (non-empty per-record
error field).  `get_matches`, however, raises `HTTPException` as soon as any
record of a chunk response is errored (errored ids are not silently
omitted), and returns each chunk's matches in upstream response order
(first occurrence of each match id), not re-sorted to the input order. -/
theorem claim_C1_amended (pids mids : List Int) (err : Int → String)
    (upP : List Int → List PlayerRecord) (upM : List Int → List MatchRecord)
    (hP : ∀ c, (upP c).Perm (c.map (fun i => ⟨i, err i, none⟩)))
    (hM : ∀ c r, r ∈ upM c → r.ret_msg = "") :
    (get_players pids false upP).1.length = ((deduplicate pids [0]).length + 19) / 20
    ∧ (get_players pids false upP).2
        = (deduplicate pids [0]).filter (fun i => decide (err i = ""))
    ∧ (get_matches mids upM).1.length = ((deduplicate mids []).length + 9) / 10
    ∧ (get_matches mids upM).2
        = .ok ((chunk 10 (deduplicate mids [])).map
            (fun c => dedupKeys ((upM c).map (·.mid)))).flatten
    ∧ (∀ up' : List Int → List MatchRecord,
        (∃ c ∈ chunk 10 (deduplicate mids []), ∃ r ∈ up' c, r.ret_msg ≠ "") →
        (get_matches mids up').2 = .error ()) := by
  refine ⟨?_, ?_, ?_, ?_, ?_⟩
  · show (chunk 20 (deduplicate pids [0])).length = _
    rw [chunk_length 20 (by omega)]
    congr 1
  · show ((chunk 20 (deduplicate pids [0])).map
      (fun c => processPlayerChunk false c (upP c))).flatten = _
    have hmap : (chunk 20 (deduplicate pids [0])).map
        (fun c => processPlayerChunk false c (upP c))
        = (chunk 20 (deduplicate pids [0])).map
            (fun c => c.filter (fun i => decide (err i = ""))) := by
      apply List.map_congr_left
      intro c hc
      have hnd : c.Nodup := (nodup_deduplicate pids [0]).sublist
        (chunk_mem_sublist 20 _ c hc)
      exact processPlayerChunk_perm_filter c hnd err (upP c) (hP c)
    rw [hmap, ← List.filter_flatten, chunk_flatten]
  · show (get_matches_go upM (chunk 10 (deduplicate mids []))).1.length = _
    rw [get_matches_go_no_err upM hM]
    show (chunk 10 (deduplicate mids [])).length = _
    rw [chunk_length 10 (by omega)]
    congr 1
  · show (get_matches_go upM (chunk 10 (deduplicate mids []))).2 = _
    rw [get_matches_go_no_err upM hM]
  · intro up' hex
    exact get_matches_go_err up' _ hex

/-- Witness for the amended claim C1: ids `[1, 2]` resp. `[3]`, an upstream
answering every id without error, in request order. -/
theorem claim_C1_witness :
    (get_players [1, 2] false
        (fun c => c.map (fun i => ⟨i, "", none⟩))).1.length
      = ((deduplicate [1, 2] [0]).length + 19) / 20
    ∧ (get_players [1, 2] false (fun c => c.map (fun i => ⟨i, "", none⟩))).2
        = (deduplicate [1, 2] [0]).filter (fun i => decide ((fun _ : Int => "") i = ""))
    ∧ (get_matches [3] (fun c => c.map (fun i => ⟨i, ""⟩))).1.length
        = ((deduplicate [3] []).length + 9) / 10
    ∧ (get_matches [3] (fun c => c.map (fun i => ⟨i, ""⟩))).2
        = .ok ((chunk 10 (deduplicate [3] [])).map
            (fun c => dedupKeys ((c.map
              (fun i => (⟨i, ""⟩ : MatchRecord))).map (·.mid)))).flatten
    ∧ (∀ up' : List Int → List MatchRecord,
        (∃ c ∈ chunk 10 (deduplicate [3] []), ∃ r ∈ up' c, r.ret_msg ≠ "") →
        (get_matches [3] up').2 = .error ()) :=
  claim_C1_amended [1, 2] [3] (fun _ => "")
    (fun c => c.map (fun i => ⟨i, "", none⟩)) (fun c => c.map (fun i => ⟨i, ""⟩))
    (fun c => List.Perm.refl _)
    (by
      intro c r hr
      simp only [List.mem_map] at hr
      obtain ⟨i, _, rfl⟩ := hr
      rfl)
